import Mathlib

/-! SpurGear: the involute tooth-gap generator of `JavaScript/SpurGear.js`.

A shallow embedding of `involutePoint` and `buildGear` over the real numbers.

* JavaScript numbers are read as real numbers: `Math.sqrt`, `Math.cos`, `Math.sin`,
  `Math.acos`, `Math.atan` become `Real.sqrt`, `Real.cos`, `Real.sin`, `Real.arccos`,
  `Real.arctan`, and rounding is ignored.  The real model agrees with the script wherever no
  operation leaves its real domain (no division by zero, no square root of a negative number,
  no `acos` outside `[-1, 1]`).  Outside that range the script yields `NaN` or `Infinity`;
  that behaviour of `involutePoint` is embedded separately over `JSNum`.
* Every local variable of `buildGear` is a definition of the same name, a function of the
  arguments of `buildGear` it depends on; arrays are lists.
* The host calls (`sketch...add`, `createExtrude`, the circular pattern) are recorded as the
  fields of `GearSketch`, the data `buildGear` hands to the host.
-/

namespace SpurGear

/-- The `adsk.core.Point3D` record: three mutable coordinates. -/
structure Point3D where
  x : ℝ
  y : ℝ
  z : ℝ

noncomputable section

/-- Source lines 169-186, `involutePoint`. -/
def involutePoint (baseCircleRadius distFromCenterToInvolutePoint : ℝ) : Point3D :=
  let l := Real.sqrt (distFromCenterToInvolutePoint * distFromCenterToInvolutePoint
    - baseCircleRadius * baseCircleRadius)
  let alpha := l / baseCircleRadius
  let theta := alpha - Real.arccos (baseCircleRadius / distFromCenterToInvolutePoint)
  let x := distFromCenterToInvolutePoint * Real.cos theta
  let y := distFromCenterToInvolutePoint * Real.sin theta
  ⟨x, y, 0⟩

/-! ## `buildGear`, lines 218-229: the dimensions -/

/-- Line 219. -/
def pitchDia (diametralPitch : ℝ) (numTeeth : ℤ) : ℝ :=
  (numTeeth : ℝ) / diametralPitch

/-- Lines 220-226. -/
def dedendum (diametralPitch : ℝ) : ℝ :=
  if diametralPitch < 20 * (Real.pi / 180) then 1.157 / diametralPitch
  else 1.25 / diametralPitch

/-- Line 227. -/
def rootDiameter (diametralPitch : ℝ) (numTeeth : ℤ) : ℝ :=
  pitchDia diametralPitch numTeeth - (2 * dedendum diametralPitch)

/-- Line 228. -/
def baseCircleDiameter (diametralPitch : ℝ) (numTeeth : ℤ) (pressureAngle : ℝ) : ℝ :=
  pitchDia diametralPitch numTeeth * Real.cos pressureAngle

/-- Line 229. -/
def outsideDia (diametralPitch : ℝ) (numTeeth : ℤ) : ℝ :=
  ((numTeeth : ℝ) + 2) / diametralPitch

/-! ## `buildGear`, lines 231-245: sampling the involute -/

/-- Line 232. -/
def involutePointCount : ℕ := 10

/-- Line 235; `involuteIntersectionRadius` still holds its initial value
`baseCircleDiameter / 2.0` (line 233) when the step is computed. -/
def radiusStep (diametralPitch : ℝ) (numTeeth : ℤ) (pressureAngle : ℝ) : ℝ :=
  ((outsideDia diametralPitch numTeeth
      - (baseCircleDiameter diametralPitch numTeeth pressureAngle / 2.0) * 2) / 2)
    / ((involutePointCount : ℝ) - 1)

/-- The values `involuteIntersectionRadius` takes at the start of the successive iterations of
the loop of lines 236-240: `n` iterations starting from `r`, each ending with
`involuteIntersectionRadius = involuteIntersectionRadius + radiusStep`. -/
def sampleRadii (step : ℝ) : ℕ → ℝ → List ℝ
  | 0, _ => []
  | n + 1, r => r :: sampleRadii step n (r + step)

/-- The radii at which the loop of lines 236-240 samples, starting from
`baseCircleDiameter / 2.0` (line 233). -/
def involuteIntersectionRadii (diametralPitch : ℝ) (numTeeth : ℤ) (pressureAngle : ℝ) :
    List ℝ :=
  sampleRadii (radiusStep diametralPitch numTeeth pressureAngle) involutePointCount
    (baseCircleDiameter diametralPitch numTeeth pressureAngle / 2.0)

/-- The array `involutePoints` as the loop of lines 236-240 leaves it (before the rotation). -/
def sampledPoints (diametralPitch : ℝ) (numTeeth : ℤ) (pressureAngle : ℝ) : List Point3D :=
  (involuteIntersectionRadii diametralPitch numTeeth pressureAngle).map
    (involutePoint (baseCircleDiameter diametralPitch numTeeth pressureAngle / 2.0))

/-- Line 244. -/
def pitchInvolutePoint (diametralPitch : ℝ) (numTeeth : ℤ) (pressureAngle : ℝ) : Point3D :=
  involutePoint (baseCircleDiameter diametralPitch numTeeth pressureAngle / 2.0)
    (pitchDia diametralPitch numTeeth / 2.0)

/-- The arguments `(baseCircleRadius, distFromCenterToInvolutePoint)` of every call of
`involutePoint` that `buildGear` makes, in order: the ten calls of line 237 and the call of
line 244. -/
def involuteCalls (diametralPitch : ℝ) (numTeeth : ℤ) (pressureAngle : ℝ) : List (ℝ × ℝ) :=
  (involuteIntersectionRadii diametralPitch numTeeth pressureAngle).map
      (fun r => (baseCircleDiameter diametralPitch numTeeth pressureAngle / 2.0, r))
    ++ [(baseCircleDiameter diametralPitch numTeeth pressureAngle / 2.0,
          pitchDia diametralPitch numTeeth / 2.0)]

/-- Line 245. -/
def pitchPointAngle (diametralPitch : ℝ) (numTeeth : ℤ) (pressureAngle : ℝ) : ℝ :=
  Real.arctan ((pitchInvolutePoint diametralPitch numTeeth pressureAngle).y
    / (pitchInvolutePoint diametralPitch numTeeth pressureAngle).x)

/-! ## `buildGear`, lines 247-281: rotation, mirror, polar form -/

/-- Line 249. -/
def tooththicknessAngle (numTeeth : ℤ) : ℝ :=
  -(2 * Real.pi) / (2 * (numTeeth : ℝ))

/-- The argument of `Math.cos` and `Math.sin` in lines 252-253. -/
def rotationAngle (diametralPitch : ℝ) (numTeeth : ℤ) (pressureAngle : ℝ) : ℝ :=
  -pitchPointAngle diametralPitch numTeeth pressureAngle + (tooththicknessAngle numTeeth / 2)

/-- Line 252. -/
def cosAngle (diametralPitch : ℝ) (numTeeth : ℤ) (pressureAngle : ℝ) : ℝ :=
  Real.cos (rotationAngle diametralPitch numTeeth pressureAngle)

/-- Line 253. -/
def sinAngle (diametralPitch : ℝ) (numTeeth : ℤ) (pressureAngle : ℝ) : ℝ :=
  Real.sin (rotationAngle diametralPitch numTeeth pressureAngle)

/-- The body of the loop of lines 254-257 on one point: line 255 overwrites `x`, and line 256
then reads that overwritten `x` when it computes `y`. -/
def rotateInPlace (cosAngle sinAngle : ℝ) (p : Point3D) : Point3D :=
  let x1 := p.x * cosAngle - p.y * sinAngle
  let y1 := x1 * sinAngle + p.y * cosAngle
  ⟨x1, y1, p.z⟩

/-- The array `involutePoints` after the loop of lines 254-257. -/
def involutePoints (diametralPitch : ℝ) (numTeeth : ℤ) (pressureAngle : ℝ) : List Point3D :=
  (sampledPoints diametralPitch numTeeth pressureAngle).map
    (rotateInPlace (cosAngle diametralPitch numTeeth pressureAngle)
      (sinAngle diametralPitch numTeeth pressureAngle))

/-- Lines 261-264. -/
def involute2Points (diametralPitch : ℝ) (numTeeth : ℤ) (pressureAngle : ℝ) : List Point3D :=
  (involutePoints diametralPitch numTeeth pressureAngle).map (fun p => ⟨p.x, -p.y, 0⟩)

/-- The expression pushed in lines 269 and 276. -/
def pointDist (p : Point3D) : ℝ := Real.sqrt (p.x * p.x + p.y * p.y)

/-- The expression pushed in lines 270 and 277. -/
def pointAngle (p : Point3D) : ℝ := Real.arctan (p.y / p.x)

/-- Lines 266-271. -/
def curve1Dist (diametralPitch : ℝ) (numTeeth : ℤ) (pressureAngle : ℝ) : List ℝ :=
  (involutePoints diametralPitch numTeeth pressureAngle).map pointDist

/-- Lines 266-271. -/
def curve1Angle (diametralPitch : ℝ) (numTeeth : ℤ) (pressureAngle : ℝ) : List ℝ :=
  (involutePoints diametralPitch numTeeth pressureAngle).map pointAngle

/-- Lines 273-278. -/
def curve2Dist (diametralPitch : ℝ) (numTeeth : ℤ) (pressureAngle : ℝ) : List ℝ :=
  (involute2Points diametralPitch numTeeth pressureAngle).map pointDist

/-- Lines 273-278. -/
def curve2Angle (diametralPitch : ℝ) (numTeeth : ℤ) (pressureAngle : ℝ) : List ℝ :=
  (involute2Points diametralPitch numTeeth pressureAngle).map pointAngle

/-- Line 281. -/
def angleDiff (numTeeth : ℤ) : ℝ := -tooththicknessAngle numTeeth * 2

/-! ## `buildGear`, lines 283-339: what is handed to the host -/

/-- Line 301, the value of `currentAngle` while the first tooth gap is drawn. -/
def currentAngle0 : ℝ := 0

/-- Line 304. -/
def rootPoint1 (diametralPitch : ℝ) (numTeeth : ℤ) (pressureAngle : ℝ) : Point3D :=
  ⟨(rootDiameter diametralPitch numTeeth / 2)
      * Real.cos ((curve1Angle diametralPitch numTeeth pressureAngle).getD 0 0 + currentAngle0),
   (rootDiameter diametralPitch numTeeth / 2)
      * Real.sin ((curve1Angle diametralPitch numTeeth pressureAngle).getD 0 0 + currentAngle0),
   0⟩

/-- Line 307. -/
def rootPoint2 (diametralPitch : ℝ) (numTeeth : ℤ) (pressureAngle : ℝ) : Point3D :=
  ⟨(rootDiameter diametralPitch numTeeth / 2)
      * Real.cos ((curve2Angle diametralPitch numTeeth pressureAngle).getD 0 0 + currentAngle0),
   (rootDiameter diametralPitch numTeeth / 2)
      * Real.sin ((curve2Angle diametralPitch numTeeth pressureAngle).getD 0 0 + currentAngle0),
   0⟩

/-- Line 311. -/
def midPoint (diametralPitch : ℝ) (numTeeth : ℤ) : Point3D :=
  ⟨(outsideDia diametralPitch numTeeth / 2) * Real.cos currentAngle0,
   (outsideDia diametralPitch numTeeth / 2) * Real.sin currentAngle0, 0⟩

/-- Line 314, the value of `currentAngle` for the next tooth. -/
def currentAngle1 (numTeeth : ℤ) : ℝ := angleDiff numTeeth * 1

/-- Lines 318-319 over the loop of line 317: the array `involutePoints` when `buildGear`
ends, re-derived from `curve1Dist` and `curve1Angle`; `z` is not written. -/
def nextInvolutePoints (diametralPitch : ℝ) (numTeeth : ℤ) (pressureAngle : ℝ) :
    List Point3D :=
  (List.range involutePointCount).map fun i =>
    ⟨(curve1Dist diametralPitch numTeeth pressureAngle).getD i 0
        * Real.cos ((curve1Angle diametralPitch numTeeth pressureAngle).getD i 0
            + currentAngle1 numTeeth),
     (curve1Dist diametralPitch numTeeth pressureAngle).getD i 0
        * Real.sin ((curve1Angle diametralPitch numTeeth pressureAngle).getD i 0
            + currentAngle1 numTeeth),
     ((involutePoints diametralPitch numTeeth pressureAngle).getD i ⟨0, 0, 0⟩).z⟩

/-- Lines 321-322 over the loop of line 317: the array `involute2Points` when `buildGear`
ends. -/
def nextInvolute2Points (diametralPitch : ℝ) (numTeeth : ℤ) (pressureAngle : ℝ) :
    List Point3D :=
  (List.range involutePointCount).map fun i =>
    ⟨(curve2Dist diametralPitch numTeeth pressureAngle).getD i 0
        * Real.cos ((curve2Angle diametralPitch numTeeth pressureAngle).getD i 0
            + currentAngle1 numTeeth),
     (curve2Dist diametralPitch numTeeth pressureAngle).getD i 0
        * Real.sin ((curve2Angle diametralPitch numTeeth pressureAngle).getD i 0
            + currentAngle1 numTeeth),
     ((involute2Points diametralPitch numTeeth pressureAngle).getD i ⟨0, 0, 0⟩).z⟩

/-- What one run of `buildGear` does that is visible outside it: the calls of `involutePoint`
it made and the geometry it handed to the host sketch and features. -/
structure GearSketch where
  /-- The arguments of the calls of `involutePoint`, in order. -/
  involuteCalls : List (ℝ × ℝ)
  /-- The fit points of `spline1` (line 290). -/
  spline1 : List Point3D
  /-- The fit points of `spline2` (line 299). -/
  spline2 : List Point3D
  /-- The points `rootPoint1` and `rootPoint2` from which the two root lines are drawn to the
  starts of the splines (lines 303-309); `none` when the guard of line 303 fails. -/
  rootPoints : Option (Point3D × Point3D)
  /-- The middle point of the three-point tip arc (lines 311-312). -/
  midPoint : Point3D
  /-- The radius of the root circle (line 325). -/
  rootCircleRadius : ℝ
  /-- The distance of both extrusions (lines 330, 332). -/
  extrudeDistance : ℝ
  /-- The string given as quantity of the circular pattern (line 338),
  `numTeeth.toString()`: the decimal digits of the integer. -/
  quantity : String

/-- Lines 213-339, the body of `buildGear` once the new component exists. -/
def gearSketch (diametralPitch : ℝ) (numTeeth : ℤ) (pressureAngle thickness : ℝ) :
    GearSketch where
  involuteCalls := involuteCalls diametralPitch numTeeth pressureAngle
  spline1 := involutePoints diametralPitch numTeeth pressureAngle
  spline2 := involute2Points diametralPitch numTeeth pressureAngle
  rootPoints :=
    if baseCircleDiameter diametralPitch numTeeth pressureAngle
        ≥ rootDiameter diametralPitch numTeeth then
      some (rootPoint1 diametralPitch numTeeth pressureAngle,
        rootPoint2 diametralPitch numTeeth pressureAngle)
    else none
  midPoint := midPoint diametralPitch numTeeth
  rootCircleRadius := rootDiameter diametralPitch numTeeth / 2
  extrudeDistance := thickness
  quantity := toString numTeeth

/-- Lines 207-345, `buildGear`.  `newCompCreated` says whether `createNewComponent()` left a
component in `newComp`; when it did not, `buildGear` shows a message and returns (lines
209-212), which is the only early exit. -/
def buildGear (newCompCreated : Bool) (diametralPitch : ℝ) (numTeeth : ℤ)
    (pressureAngle thickness : ℝ) : Option GearSketch :=
  if !newCompCreated then none
  else some (gearSketch diametralPitch numTeeth pressureAngle thickness)

/-- The four command inputs as lines 148-157 read them. -/
structure CommandInputs where
  /-- The value of `unitsMgr.evaluateExpression(diaPitchInput.expression, "cm")`. -/
  diaPitch : ℝ
  /-- The value of `unitsMgr.evaluateExpression(pressureAngleInput.expression, "deg")`. -/
  pressureAngle : ℝ
  /-- The value of `unitsMgr.evaluateExpression(thicknessInput.expression, "cm")`. -/
  thickness : ℝ
  /-- The tooth count: `none` when `numTeethInput.value === ''`, otherwise the integer
  `parseInt(numTeethInput.value)`; a text for which `parseInt` gives `NaN` is not covered. -/
  numTeethValue : Option ℤ

/-- Lines 133-160 of `onCommandExecuted`: `inputs` is `none` when one of the four inputs was
not found (line 138). -/
def onCommandExecuted (newCompCreated : Bool) (inputs : Option CommandInputs) :
    Option GearSketch :=
  match inputs with
  | none => buildGear newCompCreated 7.62 24 (20.0 * (Real.pi / 180)) 3.5
  | some i =>
    buildGear newCompCreated i.diaPitch
      (match i.numTeethValue with
        | none => 24
        | some n => n)
      i.pressureAngle i.thickness

/-! ## `involutePoint` with the non-finite values of JavaScript numbers -/

/-- A JavaScript number without rounding: `NaN`, an infinity (`inf true` is `-Infinity`), or a
real number.  Zero carries no sign; a zero divisor is read as `+0`. -/
inductive JSNum where
  | nan : JSNum
  | inf (negative : Bool) : JSNum
  | fin (v : ℝ) : JSNum

namespace JSNum

/-- The operator `*`. -/
def mul : JSNum → JSNum → JSNum
  | fin a, fin b => fin (a * b)
  | inf s, inf t => inf (xor s t)
  | inf s, fin b => if b = 0 then nan else inf (xor s (decide (b < 0)))
  | fin a, inf t => if a = 0 then nan else inf (xor (decide (a < 0)) t)
  | _, _ => nan

/-- The operator `-`. -/
def sub : JSNum → JSNum → JSNum
  | fin a, fin b => fin (a - b)
  | inf s, inf t => if s = t then nan else inf s
  | inf s, fin _ => inf s
  | fin _, inf t => inf (!t)
  | _, _ => nan

/-- The operator `/`. -/
def div : JSNum → JSNum → JSNum
  | fin a, fin b =>
    if b = 0 then (if a = 0 then nan else inf (decide (a < 0))) else fin (a / b)
  | inf _, inf _ => nan
  | inf s, fin b => inf (xor s (decide (b < 0)))
  | fin _, inf _ => fin 0
  | _, _ => nan

/-- The function `Math.sqrt`. -/
def sqrt : JSNum → JSNum
  | fin a => if a < 0 then nan else fin (Real.sqrt a)
  | inf false => inf false
  | _ => nan

/-- The function `Math.acos`. -/
def acos : JSNum → JSNum
  | fin a => if a < -1 ∨ 1 < a then nan else fin (Real.arccos a)
  | _ => nan

/-- The function `Math.cos`. -/
def cos : JSNum → JSNum
  | fin a => fin (Real.cos a)
  | _ => nan

/-- The function `Math.sin`. -/
def sin : JSNum → JSNum
  | fin a => fin (Real.sin a)
  | _ => nan

end JSNum

/-- A `Point3D` whose coordinates may be non-finite. -/
structure JSPoint3D where
  x : JSNum
  y : JSNum
  z : JSNum

/-- Source lines 169-186, `involutePoint`, over `JSNum`: the function has no guard and no
`throw`, and always reaches `return adsk.core.Point3D.create(x, y, 0)`. -/
def involutePointJS (baseCircleRadius distFromCenterToInvolutePoint : JSNum) : JSPoint3D :=
  let l := JSNum.sqrt (JSNum.sub
    (JSNum.mul distFromCenterToInvolutePoint distFromCenterToInvolutePoint)
    (JSNum.mul baseCircleRadius baseCircleRadius))
  let alpha := JSNum.div l baseCircleRadius
  let theta := JSNum.sub alpha
    (JSNum.acos (JSNum.div baseCircleRadius distFromCenterToInvolutePoint))
  let x := JSNum.mul distFromCenterToInvolutePoint (JSNum.cos theta)
  let y := JSNum.mul distFromCenterToInvolutePoint (JSNum.sin theta)
  ⟨x, y, JSNum.fin 0⟩

/-! ## Reference notions the specification compares the code with -/

/-- The rotation of a point about the origin (the z-axis) by the angle `a`, each coordinate
computed from the coordinates of `p`. -/
def rotateAbout (a : ℝ) (p : Point3D) : Point3D :=
  ⟨p.x * Real.cos a - p.y * Real.sin a, p.x * Real.sin a + p.y * Real.cos a, p.z⟩

/-- The involute of the circle of radius `b` at the unwinding parameter `t`: the point
`(b (cos t + t sin t), b (sin t - t cos t), 0)`. -/
def involuteOfCircle (b t : ℝ) : Point3D :=
  ⟨b * (Real.cos t + t * Real.sin t), b * (Real.sin t - t * Real.cos t), 0⟩

/-- The two-argument arctangent `atan2(y, x)`: the argument, in `(-π, π]`, of the complex
number `x + y i`. -/
def atan2 (y x : ℝ) : ℝ := Complex.arg ⟨x, y⟩

end

/-! ## Auxiliary facts -/

theorem Point3D.ext_iff3 (p q : Point3D) : p = q ↔ p.x = q.x ∧ p.y = q.y ∧ p.z = q.z := by
  cases p; cases q; simp

theorem sin_arccos_ratio (b r : ℝ) (hb : 0 < b) (hr : b ≤ r) :
    Real.sin (Real.arccos (b / r)) = Real.sqrt (r * r - b * b) / r := by
  have hr0 : 0 < r := lt_of_lt_of_le hb hr
  rw [Real.sin_arccos]
  have h : 1 - (b / r) ^ 2 = (r * r - b * b) / r ^ 2 := by
    field_simp
    ring
  rw [h, Real.sqrt_div (by nlinarith), Real.sqrt_sq hr0.le]

theorem cos_arccos_ratio (b r : ℝ) (hb : 0 < b) (hr : b ≤ r) :
    Real.cos (Real.arccos (b / r)) = b / r := by
  have hr0 : 0 < r := lt_of_lt_of_le hb hr
  apply Real.cos_arccos
  · have : 0 ≤ b / r := div_nonneg hb.le hr0.le
    linarith
  · exact (div_le_one hr0).mpr hr

theorem involutePoint_x (b r : ℝ) (hb : 0 < b) (hr : b ≤ r) :
    (involutePoint b r).x
      = b * (Real.cos (Real.sqrt (r * r - b * b) / b)
          + Real.sqrt (r * r - b * b) / b * Real.sin (Real.sqrt (r * r - b * b) / b)) := by
  have hr0 : 0 < r := lt_of_lt_of_le hb hr
  simp only [involutePoint]
  rw [Real.cos_sub, sin_arccos_ratio b r hb hr, cos_arccos_ratio b r hb hr]
  field_simp
  ring

theorem involutePoint_y (b r : ℝ) (hb : 0 < b) (hr : b ≤ r) :
    (involutePoint b r).y
      = b * (Real.sin (Real.sqrt (r * r - b * b) / b)
          - Real.sqrt (r * r - b * b) / b * Real.cos (Real.sqrt (r * r - b * b) / b)) := by
  have hr0 : 0 < r := lt_of_lt_of_le hb hr
  simp only [involutePoint]
  rw [Real.sin_sub, sin_arccos_ratio b r hb hr, cos_arccos_ratio b r hb hr]
  field_simp
  ring

theorem involutePoint_self (b : ℝ) (hb : 0 < b) : involutePoint b b = ⟨b, 0, 0⟩ := by
  have hb0 : b ≠ 0 := hb.ne.symm
  simp [involutePoint, hb0]

/-! ## C1 -/

/-- C1: for a base radius `b > 0` and a target radius `r ≥ b`, `involutePoint b r` is the point
of the involute of the circle of radius `b` at the unwinding parameter
`t = sqrt (r^2 - b^2) / b`, namely `(b (cos t + t sin t), b (sin t - t cos t), 0)`; at the
boundary `r = b` it is `(b, 0, 0)`. -/
theorem involutePoint_is_involute (b r : ℝ) (hb : 0 < b) (hr : b ≤ r) :
    involutePoint b r
        = ⟨b * (Real.cos (Real.sqrt (r ^ 2 - b ^ 2) / b)
              + Real.sqrt (r ^ 2 - b ^ 2) / b * Real.sin (Real.sqrt (r ^ 2 - b ^ 2) / b)),
           b * (Real.sin (Real.sqrt (r ^ 2 - b ^ 2) / b)
              - Real.sqrt (r ^ 2 - b ^ 2) / b * Real.cos (Real.sqrt (r ^ 2 - b ^ 2) / b)),
           0⟩
      ∧ involutePoint b b = ⟨b, 0, 0⟩ := by
  refine ⟨?_, involutePoint_self b hb⟩
  rw [Point3D.ext_iff3]
  refine ⟨?_, ?_, rfl⟩
  · rw [involutePoint_x b r hb hr, sq, sq]
  · rw [involutePoint_y b r hb hr, sq, sq]

/-- C1 at the base radius 1 and the target radius 1. -/
theorem involutePoint_is_involute_witness :
    (0 : ℝ) < 1 ∧ (1 : ℝ) ≤ 1 ∧ involutePoint 1 1 = ⟨1, 0, 0⟩ :=
  ⟨one_pos, le_refl 1, (involutePoint_is_involute 1 1 one_pos (le_refl 1)).2⟩

/-! ## Dimensions -/

theorem dedendum_eq (dp : ℝ) :
    dedendum dp = (if dp < 20 * (Real.pi / 180) then 1.157 else 1.25) / dp := by
  unfold dedendum
  split_ifs <;> rfl

theorem dedendum_coeff_pos (dp : ℝ) :
    (0 : ℝ) < (if dp < 20 * (Real.pi / 180) then (1.157 : ℝ) else 1.25) := by
  split_ifs <;> norm_num

theorem baseCircleDiameter_le_pitchDia (dp : ℝ) (N : ℤ) (φ : ℝ) (hdp : 0 < dp) (hN : 0 ≤ N) :
    baseCircleDiameter dp N φ ≤ pitchDia dp N := by
  unfold baseCircleDiameter
  have hp : 0 ≤ pitchDia dp N := by
    unfold pitchDia
    exact div_nonneg (by exact_mod_cast hN) hdp.le
  nlinarith [Real.cos_le_one φ]

theorem pitchDia_lt_outsideDia (dp : ℝ) (N : ℤ) (hdp : 0 < dp) :
    pitchDia dp N < outsideDia dp N := by
  unfold pitchDia outsideDia
  exact div_lt_div_of_pos_right (by linarith) hdp

theorem baseCircleDiameter_pos (dp : ℝ) (N : ℤ) (φ : ℝ) (hdp : 0 < dp) (hN : 1 ≤ N)
    (h0 : 0 < φ) (h1 : φ < Real.pi / 2) : 0 < baseCircleDiameter dp N φ := by
  unfold baseCircleDiameter pitchDia
  have hN0 : (0 : ℝ) < N := by exact_mod_cast (by omega : 0 < N)
  have hc : 0 < Real.cos φ := Real.cos_pos_of_mem_Ioo ⟨by linarith, h1⟩
  positivity

/-! ## C5 -/

/-- C5: for `diametralPitch > 0`, `numTeeth ≥ 4` and `pressureAngle` in `(0, π/2)`, the
diameters satisfy `baseCircleDiameter ≤ pitchDia < outsideDia`, and the full ordering
`rootDiameter < baseCircleDiameter ≤ pitchDia < outsideDia` holds exactly when
`numTeeth * (1 - cos pressureAngle) < 2 * k`, with `k` the dedendum coefficient selected in
lines 221-226. -/
theorem diameter_ordering (dp : ℝ) (N : ℤ) (φ : ℝ) (hdp : 0 < dp) (hN : 4 ≤ N)
    (_h0 : 0 < φ) (_h1 : φ < Real.pi / 2) :
    (baseCircleDiameter dp N φ ≤ pitchDia dp N ∧ pitchDia dp N < outsideDia dp N)
      ∧ ((rootDiameter dp N < baseCircleDiameter dp N φ
            ∧ baseCircleDiameter dp N φ ≤ pitchDia dp N
            ∧ pitchDia dp N < outsideDia dp N)
          ↔ (N : ℝ) * (1 - Real.cos φ)
              < 2 * (if dp < 20 * (Real.pi / 180) then 1.157 else 1.25)) := by
  have hb := baseCircleDiameter_le_pitchDia dp N φ hdp (by omega)
  have ho := pitchDia_lt_outsideDia dp N hdp
  refine ⟨⟨hb, ho⟩, ?_⟩
  have key : rootDiameter dp N < baseCircleDiameter dp N φ
      ↔ (N : ℝ) * (1 - Real.cos φ)
          < 2 * (if dp < 20 * (Real.pi / 180) then 1.157 else 1.25) := by
    unfold rootDiameter baseCircleDiameter pitchDia
    rw [dedendum_eq]
    generalize (if dp < 20 * (Real.pi / 180) then (1.157 : ℝ) else 1.25) = k
    have e : (N : ℝ) / dp * Real.cos φ - ((N : ℝ) / dp - 2 * (k / dp))
        = (2 * k - (N : ℝ) * (1 - Real.cos φ)) / dp := by
      field_simp
      ring
    rw [← sub_pos, e, div_pos_iff_of_pos_right hdp, sub_pos]
  constructor
  · intro h
    exact key.mp h.1
  · intro h
    exact ⟨key.mpr h, hb, ho⟩

/-- C5 at `diametralPitch = 1`, `numTeeth = 4`, `pressureAngle = π/4`. -/
theorem diameter_ordering_witness :
    baseCircleDiameter 1 4 (Real.pi / 4) ≤ pitchDia 1 4 ∧ pitchDia 1 4 < outsideDia 1 4 :=
  (diameter_ordering 1 4 (Real.pi / 4) one_pos (le_refl 4)
    (by positivity) (by linarith [Real.pi_pos])).1

/-! ## Numerical bounds for the 20 degree pressure angle -/

theorem cos_pi_div_nine_bounds :
    (0.939692 : ℝ) < Real.cos (Real.pi / 9) ∧ Real.cos (Real.pi / 9) < 0.939693 := by
  have h3 : 4 * Real.cos (Real.pi / 9) ^ 3 - 3 * Real.cos (Real.pi / 9) = 1 / 2 := by
    rw [← Real.cos_three_mul, show 3 * (Real.pi / 9) = Real.pi / 3 by ring,
      Real.cos_pi_div_three]
  have hc : 1 / 2 ≤ Real.cos (Real.pi / 9) := by
    rw [← Real.cos_pi_div_three]
    apply Real.cos_le_cos_of_nonneg_of_le_pi <;> linarith [Real.pi_pos]
  generalize Real.cos (Real.pi / 9) = c at h3 hc
  constructor
  · by_contra hlt
    push_neg at hlt
    have hpos : 0 ≤ (0.939692 - c) * (4 * (0.939692 ^ 2 + 0.939692 * c + c ^ 2) - 3) := by
      apply mul_nonneg (by linarith)
      nlinarith
    nlinarith
  · by_contra hlt
    push_neg at hlt
    have hpos : 0 ≤ (c - 0.939693) * (4 * (0.939693 ^ 2 + 0.939693 * c + c ^ 2) - 3) := by
      apply mul_nonneg (by linarith)
      nlinarith
    nlinarith

theorem cos_default_pressureAngle_bounds :
    (0.939691 : ℝ) < Real.cos 0.349066 ∧ Real.cos 0.349066 < 0.939693 := by
  have hpi1 := Real.pi_gt_d6
  have hpi2 := Real.pi_lt_d6
  obtain ⟨hlo, hhi⟩ := cos_pi_div_nine_bounds
  have hd0 : 0 < (0.349066 - Real.pi / 9) / 2 := by linarith
  have hle : Real.cos 0.349066 ≤ Real.cos (Real.pi / 9) := by
    apply Real.cos_le_cos_of_nonneg_of_le_pi <;> linarith
  have hdiff : Real.cos 0.349066 - Real.cos (Real.pi / 9)
      = -2 * Real.sin ((0.349066 + Real.pi / 9) / 2)
          * Real.sin ((0.349066 - Real.pi / 9) / 2) := Real.cos_sub_cos _ _
  have hs1 : Real.sin ((0.349066 + Real.pi / 9) / 2) ≤ 1 := Real.sin_le_one _
  have hs1' : 0 ≤ Real.sin ((0.349066 + Real.pi / 9) / 2) := by
    apply Real.sin_nonneg_of_nonneg_of_le_pi <;> linarith
  have hs2 : Real.sin ((0.349066 - Real.pi / 9) / 2) < (0.349066 - Real.pi / 9) / 2 :=
    Real.sin_lt hd0
  have hs2' : 0 ≤ Real.sin ((0.349066 - Real.pi / 9) / 2) := by
    apply Real.sin_nonneg_of_nonneg_of_le_pi <;> linarith
  have hprod : Real.sin ((0.349066 + Real.pi / 9) / 2)
      * Real.sin ((0.349066 - Real.pi / 9) / 2) ≤ (0.349066 - Real.pi / 9) / 2 := by
    nlinarith
  constructor
  · nlinarith
  · linarith

/-! ## C6 -/

/-- C6 as stated fails: for `diametralPitch = 7.62`, `pressureAngle = 0.349066`,
`numTeeth = 24`, the computed `rootDiameter` and `baseCircleDiameter` are farther than
`0.00005` from the stated `2.8216` and `2.9598`. -/
theorem default_dimensions_stated_values_off :
    (0.00005 : ℝ) < |rootDiameter 7.62 24 - 2.8216|
      ∧ (0.00005 : ℝ) < |baseCircleDiameter 7.62 24 0.349066 - 2.9598| := by
  have hpi := Real.pi_le_four
  obtain ⟨hlo, hhi⟩ := cos_default_pressureAngle_bounds
  have hd : dedendum 7.62 = 1.25 / 7.62 := by
    unfold dedendum
    rw [if_neg (by linarith)]
  constructor
  · rw [abs_sub_comm, lt_abs]
    left
    unfold rootDiameter pitchDia
    rw [hd]
    norm_num
  · rw [abs_sub_comm, lt_abs]
    left
    unfold baseCircleDiameter pitchDia
    have : ((24 : ℤ) : ℝ) / 7.62 * Real.cos 0.349066 < 24 / 7.62 * 0.939693 := by
      push_cast
      apply mul_lt_mul_of_pos_left hhi (by norm_num)
    norm_num at this ⊢
    linarith

/-- C6, amended: for `diametralPitch = 7.62`, `pressureAngle = 0.349066`, `numTeeth = 24`,
`thickness = 2.0` the dedendum is `1.25 / diametralPitch`, the dimensions are within
`0.00005` of `pitchDia 3.1496`, `dedendum 0.1640`, `rootDiameter 2.8215`,
`baseCircleDiameter 2.9597`, `outsideDia 3.4121`, and the quantity of the circular pattern
is `24`. -/
theorem default_dimensions :
    dedendum 7.62 = 1.25 / 7.62
      ∧ |pitchDia 7.62 24 - 3.1496| < 0.00005
      ∧ |dedendum 7.62 - 0.1640| < 0.00005
      ∧ |rootDiameter 7.62 24 - 2.8215| < 0.00005
      ∧ |baseCircleDiameter 7.62 24 0.349066 - 2.9597| < 0.00005
      ∧ |outsideDia 7.62 24 - 3.4121| < 0.00005
      ∧ (gearSketch 7.62 24 0.349066 2.0).quantity = "24" := by
  have hpi := Real.pi_le_four
  obtain ⟨hlo, hhi⟩ := cos_default_pressureAngle_bounds
  have hd : dedendum 7.62 = 1.25 / 7.62 := by
    unfold dedendum
    rw [if_neg (by linarith)]
  refine ⟨hd, ?_, ?_, ?_, ?_, ?_, by decide⟩
  · unfold pitchDia
    rw [abs_lt]
    constructor <;> norm_num
  · rw [hd, abs_lt]
    constructor <;> norm_num
  · unfold rootDiameter pitchDia
    rw [hd, abs_lt]
    constructor <;> norm_num
  · unfold baseCircleDiameter pitchDia
    have h1 : ((24 : ℤ) : ℝ) / 7.62 * Real.cos 0.349066 < 24 / 7.62 * 0.939693 := by
      push_cast
      apply mul_lt_mul_of_pos_left hhi (by norm_num)
    have h2 : (24 : ℝ) / 7.62 * 0.939691 < ((24 : ℤ) : ℝ) / 7.62 * Real.cos 0.349066 := by
      push_cast
      apply mul_lt_mul_of_pos_left hlo (by norm_num)
    rw [abs_lt]
    constructor
    · norm_num at h2 ⊢
      linarith
    · norm_num at h1 ⊢
      linarith
  · unfold outsideDia
    rw [abs_lt]
    constructor <;> norm_num

/-! ## The sampling loop -/

theorem sampleRadii_eq (step : ℝ) (n : ℕ) (r : ℝ) :
    sampleRadii step n r = (List.range n).map (fun (i : ℕ) => r + (i : ℝ) * step) := by
  induction n generalizing r with
  | zero => simp [sampleRadii]
  | succ n ih =>
    rw [sampleRadii, ih, List.range_succ_eq_map, List.map_cons, List.map_map]
    congr 1
    · simp
    · apply List.map_congr_left
      intro i _
      simp only [Function.comp_apply, Nat.cast_succ]
      ring

theorem radiusStep_eq (dp : ℝ) (N : ℤ) (φ : ℝ) :
    radiusStep dp N φ = (outsideDia dp N - baseCircleDiameter dp N φ) / 18 := by
  unfold radiusStep involutePointCount
  norm_num
  ring

theorem involuteIntersectionRadii_eq (dp : ℝ) (N : ℤ) (φ : ℝ) :
    involuteIntersectionRadii dp N φ
      = (List.range 10).map (fun (i : ℕ) => baseCircleDiameter dp N φ / 2
          + (i : ℝ) * ((outsideDia dp N - baseCircleDiameter dp N φ) / 18)) := by
  unfold involuteIntersectionRadii
  rw [sampleRadii_eq, radiusStep_eq]
  norm_num [involutePointCount]

theorem involuteIntersectionRadii_length (dp : ℝ) (N : ℤ) (φ : ℝ) :
    (involuteIntersectionRadii dp N φ).length = 10 := by
  rw [involuteIntersectionRadii_eq]
  simp

theorem involuteIntersectionRadii_getElem? (dp : ℝ) (N : ℤ) (φ : ℝ) (i : ℕ) (hi : i < 10) :
    (involuteIntersectionRadii dp N φ)[i]?
      = some (baseCircleDiameter dp N φ / 2
          + (i : ℝ) * ((outsideDia dp N - baseCircleDiameter dp N φ) / 18)) := by
  rw [involuteIntersectionRadii_eq, List.getElem?_map, List.getElem?_range hi]
  rfl

/-! ## C9 -/

/-- C9: `buildGear` samples exactly 10 involute points: the array `involutePoints` left by
the loop of lines 236-240 holds, at each index `i` in `0..9`, the result of `involutePoint`
for the base radius `baseCircleDiameter / 2` and the radius
`r_i = baseCircleDiameter / 2 + i * (outsideDia - baseCircleDiameter) / 18` produced by the
accumulating loop, with `r_0 = baseCircleDiameter / 2` and `r_9 = outsideDia / 2`, and the
pitch point is the result for the same base radius and `pitchDia / 2`; and for
`diametralPitch > 0`, `numTeeth ≥ 1`, `pressureAngle` in `(0, π/2)` every call (the ten samples
and the pitch point) has `0 < base radius ≤ target radius`, so the argument of the square root
is not negative, and every sample is the point of the involute of the base circle at its
radius `r_i`. -/
theorem sampling_radii (dp : ℝ) (N : ℤ) (φ : ℝ) :
    (sampledPoints dp N φ).length = 10
      ∧ involuteIntersectionRadii dp N φ
          = (List.range 10).map (fun (i : ℕ) => baseCircleDiameter dp N φ / 2
              + (i : ℝ) * ((outsideDia dp N - baseCircleDiameter dp N φ) / 18))
      ∧ sampledPoints dp N φ
          = (involuteIntersectionRadii dp N φ).map
              (involutePoint (baseCircleDiameter dp N φ / 2))
      ∧ pitchInvolutePoint dp N φ
          = involutePoint (baseCircleDiameter dp N φ / 2) (pitchDia dp N / 2)
      ∧ involuteCalls dp N φ
          = (List.range 10).map (fun (i : ℕ) => (baseCircleDiameter dp N φ / 2,
                baseCircleDiameter dp N φ / 2
                  + (i : ℝ) * ((outsideDia dp N - baseCircleDiameter dp N φ) / 18)))
              ++ [(baseCircleDiameter dp N φ / 2, pitchDia dp N / 2)]
      ∧ (involuteIntersectionRadii dp N φ)[0]? = some (baseCircleDiameter dp N φ / 2)
      ∧ (involuteIntersectionRadii dp N φ)[9]? = some (outsideDia dp N / 2)
      ∧ (0 < dp → 1 ≤ N → 0 < φ → φ < Real.pi / 2 →
          (∀ c ∈ involuteCalls dp N φ, 0 < c.1 ∧ c.1 ≤ c.2 ∧ 0 ≤ c.2 * c.2 - c.1 * c.1)
            ∧ ∀ i : Fin 10, ∃ r : ℝ,
                (involuteIntersectionRadii dp N φ)[(i : ℕ)]? = some r
                  ∧ baseCircleDiameter dp N φ / 2 ≤ r
                  ∧ (sampledPoints dp N φ)[(i : ℕ)]?
                      = some (involuteOfCircle (baseCircleDiameter dp N φ / 2)
                          (Real.sqrt (r * r - baseCircleDiameter dp N φ / 2
                              * (baseCircleDiameter dp N φ / 2))
                            / (baseCircleDiameter dp N φ / 2)))) := by
  have e2 : baseCircleDiameter dp N φ / 2.0 = baseCircleDiameter dp N φ / 2 := by norm_num
  have e2p : pitchDia dp N / 2.0 = pitchDia dp N / 2 := by norm_num
  have hcalls : involuteCalls dp N φ
      = (List.range 10).map (fun (i : ℕ) => (baseCircleDiameter dp N φ / 2,
            baseCircleDiameter dp N φ / 2
              + (i : ℝ) * ((outsideDia dp N - baseCircleDiameter dp N φ) / 18)))
          ++ [(baseCircleDiameter dp N φ / 2, pitchDia dp N / 2)] := by
    unfold involuteCalls
    rw [involuteIntersectionRadii_eq, List.map_map]
    norm_num [Function.comp_def]
  have hsamp : sampledPoints dp N φ
      = (involuteIntersectionRadii dp N φ).map
          (involutePoint (baseCircleDiameter dp N φ / 2)) := by
    unfold sampledPoints
    rw [e2]
  refine ⟨?_, involuteIntersectionRadii_eq dp N φ, hsamp, ?_, hcalls, ?_, ?_, ?_⟩
  · unfold sampledPoints
    rw [List.length_map, involuteIntersectionRadii_length]
  · unfold pitchInvolutePoint
    rw [e2, e2p]
  · rw [involuteIntersectionRadii_getElem? dp N φ 0 (by norm_num)]
    simp
  · rw [involuteIntersectionRadii_getElem? dp N φ 9 (by norm_num)]
    congr 1
    push_cast
    ring
  · intro hdp hN h0 h1
    have hb := baseCircleDiameter_pos dp N φ hdp hN h0 h1
    have hbp := baseCircleDiameter_le_pitchDia dp N φ hdp (by omega)
    have hpo := pitchDia_lt_outsideDia dp N hdp
    have hstep : ∀ i : ℕ, baseCircleDiameter dp N φ / 2
        ≤ baseCircleDiameter dp N φ / 2
          + (i : ℝ) * ((outsideDia dp N - baseCircleDiameter dp N φ) / 18) := by
      intro i
      have hi : (0 : ℝ) ≤ (i : ℝ) := Nat.cast_nonneg i
      have hs : 0 ≤ (outsideDia dp N - baseCircleDiameter dp N φ) / 18 := by linarith
      nlinarith [mul_nonneg hi hs]
    constructor
    · intro c hc
      have key : ∀ r : ℝ, baseCircleDiameter dp N φ / 2 ≤ r →
          0 < baseCircleDiameter dp N φ / 2 ∧ baseCircleDiameter dp N φ / 2 ≤ r
            ∧ 0 ≤ r * r
                - baseCircleDiameter dp N φ / 2 * (baseCircleDiameter dp N φ / 2) := by
        intro r hr
        refine ⟨by linarith, hr, ?_⟩
        nlinarith
      rw [hcalls, List.mem_append, List.mem_map, List.mem_singleton] at hc
      rcases hc with ⟨i, _, rfl⟩ | rfl
      · exact key _ (hstep i)
      · apply key
        linarith
    · intro i
      have hr := involuteIntersectionRadii_getElem? dp N φ i i.isLt
      refine ⟨_, hr, hstep i, ?_⟩
      rw [hsamp, List.getElem?_map, hr, Option.map_some']
      congr 1
      rw [Point3D.ext_iff3]
      exact ⟨involutePoint_x _ _ (by linarith) (hstep i),
        involutePoint_y _ _ (by linarith) (hstep i), rfl⟩

/-- C9 at `diametralPitch = 1`, `numTeeth = 1`, `pressureAngle = π/4`: the call for the pitch
point has a positive base radius not above the pitch radius. -/
theorem sampling_radii_witness :
    0 < (baseCircleDiameter 1 1 (Real.pi / 4) / 2, pitchDia 1 1 / 2).1
      ∧ (baseCircleDiameter 1 1 (Real.pi / 4) / 2, pitchDia 1 1 / 2).1
          ≤ (baseCircleDiameter 1 1 (Real.pi / 4) / 2, pitchDia 1 1 / 2).2
      ∧ 0 ≤ (baseCircleDiameter 1 1 (Real.pi / 4) / 2, pitchDia 1 1 / 2).2
            * (baseCircleDiameter 1 1 (Real.pi / 4) / 2, pitchDia 1 1 / 2).2
          - (baseCircleDiameter 1 1 (Real.pi / 4) / 2, pitchDia 1 1 / 2).1
            * (baseCircleDiameter 1 1 (Real.pi / 4) / 2, pitchDia 1 1 / 2).1 :=
  ((sampling_radii 1 1 (Real.pi / 4)).2.2.2.2.2.2.2 one_pos (le_refl 1) (by positivity)
    (by linarith [Real.pi_pos])).1 _
    (by rw [(sampling_radii 1 1 (Real.pi / 4)).2.2.2.2.1]; simp)

/-! ## Arrays of ten points -/

theorem getD_map_of_getElem? {α : Type} (l : List α) (f : α → ℝ) (i : ℕ) (p : α)
    (h : l[i]? = some p) : (l.map f).getD i 0 = f p := by
  simp [List.getD_eq_getElem?_getD, h]

theorem involutePoints_length (dp : ℝ) (N : ℤ) (φ : ℝ) :
    (involutePoints dp N φ).length = 10 := by
  unfold involutePoints sampledPoints
  rw [List.length_map, List.length_map, involuteIntersectionRadii_length]

theorem involute2Points_getElem? (dp : ℝ) (N : ℤ) (φ : ℝ) (i : ℕ) (p : Point3D)
    (h : (involutePoints dp N φ)[i]? = some p) :
    (involute2Points dp N φ)[i]? = some ⟨p.x, -p.y, 0⟩ := by
  unfold involute2Points
  rw [List.getElem?_map, h]
  rfl

theorem pointAngle_mirror (p : Point3D) :
    pointAngle ⟨p.x, -p.y, 0⟩ = -pointAngle p := by
  simp only [pointAngle]
  rw [neg_div, Real.arctan_neg]

theorem pointDist_mirror (p : Point3D) : pointDist ⟨p.x, -p.y, 0⟩ = pointDist p := by
  simp only [pointDist]
  congr 1
  ring

theorem curve2Angle_eq (dp : ℝ) (N : ℤ) (φ : ℝ) :
    curve2Angle dp N φ = (curve1Angle dp N φ).map (fun a => -a) := by
  unfold curve2Angle curve1Angle involute2Points
  rw [List.map_map, List.map_map]
  apply List.map_congr_left
  intro p _
  exact pointAngle_mirror p

theorem curve2Dist_eq (dp : ℝ) (N : ℤ) (φ : ℝ) :
    curve2Dist dp N φ = curve1Dist dp N φ := by
  unfold curve2Dist curve1Dist involute2Points
  rw [List.map_map]
  apply List.map_congr_left
  intro p _
  exact pointDist_mirror p

theorem curve2Angle_getD (dp : ℝ) (N : ℤ) (φ : ℝ) (i : ℕ) :
    (curve2Angle dp N φ).getD i 0 = -(curve1Angle dp N φ).getD i 0 := by
  rw [curve2Angle_eq]
  have h := List.getD_map (l := curve1Angle dp N φ) (d := 0) (n := i) (fun a : ℝ => -a)
  simpa using h

/-! ## C3 -/

/-- C3: for `diametralPitch > 0`, `numTeeth ≥ 1` and `pressureAngle` in `(0, π/2)` (where
every value `buildGear` computes is a real number) the outline handed to the sketch is
mirror-symmetric about the x-axis: at every sample index `i` in `0..9` the fit point of
`spline2` is `(x, -y, 0)` for the fit point `(x, y, _)` of `spline1`; when the root points are
drawn (`baseCircleDiameter ≥ rootDiameter`) `rootPoint2` is the mirror image of `rootPoint1`;
and the middle point of the tip arc is `(outsideDia / 2, 0, 0)`, on the mirror axis. -/
theorem tooth_gap_mirror (dp : ℝ) (N : ℤ) (φ th : ℝ) (_hdp : 0 < dp) (_hN : 1 ≤ N)
    (_h0 : 0 < φ) (_h1 : φ < Real.pi / 2) :
    (∀ i : Fin 10, ∃ p : Point3D,
        (gearSketch dp N φ th).spline1[(i : ℕ)]? = some p
          ∧ (gearSketch dp N φ th).spline2[(i : ℕ)]? = some ⟨p.x, -p.y, 0⟩)
      ∧ (gearSketch dp N φ th).rootPoints
          = (if baseCircleDiameter dp N φ ≥ rootDiameter dp N then
              some (rootPoint1 dp N φ,
                ⟨(rootPoint1 dp N φ).x, -(rootPoint1 dp N φ).y, 0⟩)
            else none)
      ∧ (gearSketch dp N φ th).midPoint = ⟨outsideDia dp N / 2, 0, 0⟩ := by
  refine ⟨?_, ?_, ?_⟩
  · intro i
    have hi : (i : ℕ) < (involutePoints dp N φ).length := by
      rw [involutePoints_length]
      exact i.isLt
    refine ⟨(involutePoints dp N φ)[(i : ℕ)], ?_, ?_⟩
    · exact List.getElem?_eq_getElem hi
    · exact involute2Points_getElem? dp N φ i _ (List.getElem?_eq_getElem hi)
  · have h2 : rootPoint2 dp N φ
        = ⟨(rootPoint1 dp N φ).x, -(rootPoint1 dp N φ).y, 0⟩ := by
      simp only [rootPoint2, rootPoint1, curve2Angle_getD, currentAngle0, add_zero,
        Real.cos_neg, Real.sin_neg, mul_neg]
    simp only [gearSketch, h2]
  · simp [gearSketch, midPoint, currentAngle0]

/-- C3 at `diametralPitch = 1`, `numTeeth = 4`, `pressureAngle = π/4`, `thickness = 2`: the
middle point of the tip arc is `(outsideDia / 2, 0, 0)`. -/
theorem tooth_gap_mirror_witness :
    (gearSketch 1 4 (Real.pi / 4) 2).midPoint = ⟨outsideDia 1 4 / 2, 0, 0⟩ :=
  (tooth_gap_mirror 1 4 (Real.pi / 4) 2 one_pos (by norm_num) (by positivity)
    (by linarith [Real.pi_pos])).2.2

/-! ## C7 -/

/-- C7 as stated fails: with `numTeeth = 0` and `diametralPitch = 0` (and the new component
created) `buildGear` does not stop: it returns a sketch after 11 calls of `involutePoint` and
with two splines of 10 fit points. -/
theorem buildGear_zero_spec_runs :
    (buildGear true 0 0 (20 * (Real.pi / 180)) 2).map
        (fun s => (s.involuteCalls.length, s.spline1.length, s.spline2.length))
      = some (11, 10, 10) := by
  simp [buildGear, gearSketch, involuteCalls, involute2Points, involutePoints_length,
    involuteIntersectionRadii_length]

/-- C7, amended: `buildGear` validates none of its arguments: for every specification, once
the new component exists, it makes 11 calls of `involutePoint` and hands two splines of 10
fit points to the sketch; it returns nothing only when the new component was not created;
and `onCommandExecuted` passes the values it read to `buildGear` unchecked. -/
theorem buildGear_no_validation (dp : ℝ) (N : ℤ) (φ th : ℝ) :
    (buildGear true dp N φ th).map
        (fun s => (s.involuteCalls.length, s.spline1.length, s.spline2.length))
      = some (11, 10, 10)
      ∧ buildGear false dp N φ th = none
      ∧ onCommandExecuted true (some ⟨dp, φ, th, some N⟩) = buildGear true dp N φ th := by
  refine ⟨?_, rfl, rfl⟩
  simp [buildGear, gearSketch, involuteCalls, involute2Points, involutePoints_length,
    involuteIntersectionRadii_length]

/-! ## C8 -/

/-- C8 as stated fails: for the base radius 2 and the target radius 1, `involutePoint` returns
a point, and its `x` and `y` are `NaN`. -/
theorem involutePointJS_two_one :
    involutePointJS (JSNum.fin 2) (JSNum.fin 1) = ⟨JSNum.nan, JSNum.nan, JSNum.fin 0⟩ := by
  simp only [involutePointJS, JSNum.mul, JSNum.sub, JSNum.sqrt]
  norm_num [JSNum.div, JSNum.sub, JSNum.cos, JSNum.sin, JSNum.mul]

/-- C8, amended: `involutePoint` has no domain check and raises no error: for a base radius
`b > 0` and a target radius `0 < d < b` it takes `Math.sqrt` of the negative number
`d*d - b*b` and returns the point `(NaN, NaN, 0)`. -/
theorem involutePointJS_below_base (b d : ℝ) (hb : 0 < b) (hd : 0 < d) (hdb : d < b) :
    involutePointJS (JSNum.fin b) (JSNum.fin d) = ⟨JSNum.nan, JSNum.nan, JSNum.fin 0⟩ := by
  have hneg : d * d - b * b < 0 := by nlinarith
  simp only [involutePointJS, JSNum.mul, JSNum.sub, JSNum.sqrt, if_pos hneg]
  simp [JSNum.div, JSNum.sub, JSNum.cos, JSNum.sin, JSNum.mul]

/-- C8, amended, at the base radius 3 and the target radius 2. -/
theorem involutePointJS_below_base_witness :
    (0 : ℝ) < 3 ∧ (0 : ℝ) < 2 ∧ (2 : ℝ) < 3
      ∧ involutePointJS (JSNum.fin 3) (JSNum.fin 2)
          = ⟨JSNum.nan, JSNum.nan, JSNum.fin 0⟩ :=
  ⟨by norm_num, by norm_num, by norm_num,
    involutePointJS_below_base 3 2 (by norm_num) (by norm_num) (by norm_num)⟩

/-- On its domain `0 < b ≤ d` the embedding of `involutePoint` over `JSNum` returns the
finite point that the embedding over the real numbers computes. -/
theorem involutePointJS_eq_involutePoint (b d : ℝ) (hb : 0 < b) (hbd : b ≤ d) :
    involutePointJS (JSNum.fin b) (JSNum.fin d)
      = ⟨JSNum.fin (involutePoint b d).x, JSNum.fin (involutePoint b d).y, JSNum.fin 0⟩ := by
  have hd : 0 < d := lt_of_lt_of_le hb hbd
  have hnn : ¬ (d * d - b * b < 0) := by
    have : 0 ≤ d * d - b * b := by nlinarith
    linarith
  have hq0 : 0 ≤ b / d := div_nonneg hb.le hd.le
  have hq1 : b / d ≤ 1 := (div_le_one hd).mpr hbd
  have hac : ¬ (b / d < -1 ∨ 1 < b / d) := by
    push_neg
    exact ⟨by linarith, hq1⟩
  simp only [involutePointJS, involutePoint, JSNum.mul, JSNum.sub, JSNum.sqrt, JSNum.div,
    JSNum.acos, JSNum.cos, JSNum.sin, if_neg hnn, if_neg hb.ne.symm, if_neg hd.ne.symm,
    if_neg hac]

/-! ## The pitch point -/

theorem pitchInvolutePoint_eq (dp : ℝ) (N : ℤ) (φ : ℝ) (hdp : 0 < dp) (hN : 1 ≤ N)
    (h0 : 0 < φ) (h1 : φ < Real.pi / 2) :
    pitchInvolutePoint dp N φ
      = ⟨pitchDia dp N / 2 * Real.cos (Real.tan φ - φ),
         pitchDia dp N / 2 * Real.sin (Real.tan φ - φ), 0⟩ := by
  have hr : 0 < pitchDia dp N / 2 := by
    unfold pitchDia
    have : (0 : ℝ) < N := by exact_mod_cast (by omega : 0 < N)
    positivity
  have hc : 0 < Real.cos φ := Real.cos_pos_of_mem_Ioo ⟨by linarith, h1⟩
  have hs : 0 < Real.sin φ := Real.sin_pos_of_pos_of_lt_pi h0 (by linarith)
  generalize hrdef : pitchDia dp N / 2 = r at hr
  have hb : baseCircleDiameter dp N φ / 2.0 = r * Real.cos φ := by
    unfold baseCircleDiameter
    rw [← hrdef]
    norm_num
    ring
  have hp : pitchDia dp N / 2.0 = r := by
    rw [← hrdef]
    norm_num
  unfold pitchInvolutePoint involutePoint
  rw [hb, hp]
  have hl : Real.sqrt (r * r - r * Real.cos φ * (r * Real.cos φ)) = r * Real.sin φ := by
    have e : r * r - r * Real.cos φ * (r * Real.cos φ) = (r * Real.sin φ) ^ 2 := by
      have := Real.sin_sq_add_cos_sq φ
      nlinarith
    rw [e, Real.sqrt_sq (by positivity)]
  have ha : r * Real.sin φ / (r * Real.cos φ) = Real.tan φ := by
    rw [Real.tan_eq_sin_div_cos]
    field_simp
    ring
  have hq : r * Real.cos φ / r = Real.cos φ := by
    field_simp
  simp only [hl, ha, hq, Real.arccos_cos h0.le (by linarith : φ ≤ Real.pi)]

theorem pitchPointAngle_eq_arctan_tan (dp : ℝ) (N : ℤ) (φ : ℝ) (hdp : 0 < dp) (hN : 1 ≤ N)
    (h0 : 0 < φ) (h1 : φ < Real.pi / 2) :
    pitchPointAngle dp N φ = Real.arctan (Real.tan (Real.tan φ - φ)) := by
  have hr : pitchDia dp N / 2 ≠ 0 := by
    unfold pitchDia
    have : (0 : ℝ) < N := by exact_mod_cast (by omega : 0 < N)
    positivity
  unfold pitchPointAngle
  rw [pitchInvolutePoint_eq dp N φ hdp hN h0 h1]
  simp only []
  rw [mul_div_mul_left _ _ hr, ← Real.tan_eq_sin_div_cos]

theorem arctan_lt_self (t : ℝ) (ht : 0 < t) : Real.arctan t < t := by
  have h1 : 0 < Real.arctan t := by
    rw [← Real.arctan_zero]
    exact Real.arctan_strictMono ht
  have h2 := Real.lt_tan h1 (Real.arctan_lt_pi_div_two t)
  rwa [Real.tan_arctan] at h2

/-! ## `atan` against `atan2` -/

theorem atan2_of_pos (y x : ℝ) (hx : 0 < x) : atan2 y x = Real.arctan (y / x) := by
  unfold atan2
  rw [Complex.arg_of_re_nonneg (by simpa using hx.le), Real.arctan_eq_arcsin]
  congr 1
  have habs : Complex.abs ⟨x, y⟩ = Real.sqrt (x * x + y * y) := by
    rw [Complex.abs_apply, Complex.normSq_mk]
  have hd : 0 < x * x + y * y := by nlinarith [mul_pos hx hx, mul_self_nonneg y]
  have hsq : Real.sqrt (1 + (y / x) ^ 2) = Real.sqrt (x * x + y * y) / x := by
    have e : 1 + (y / x) ^ 2 = (x * x + y * y) / x ^ 2 := by
      field_simp
      ring
    rw [e, Real.sqrt_div hd.le, Real.sqrt_sq hx.le]
  rw [habs, hsq]
  have hs : 0 < Real.sqrt (x * x + y * y) := Real.sqrt_pos.mpr hd
  field_simp

theorem atan2_ne_arctan_of_neg (y x t : ℝ) (hx : x < 0) : Real.arctan t ≠ atan2 y x := by
  intro h
  have h1 : |Real.arctan t| < Real.pi / 2 := by
    rw [abs_lt]
    exact ⟨Real.neg_pi_div_two_lt_arctan t, Real.arctan_lt_pi_div_two t⟩
  have h2 : ¬ |atan2 y x| ≤ Real.pi / 2 := by
    unfold atan2
    rw [Complex.abs_arg_le_pi_div_two_iff]
    simpa using hx
  rw [h] at h1
  exact h2 h1.le

theorem pitchInvolutePoint_x_pos (dp : ℝ) (N : ℤ) (φ : ℝ) (hdp : 0 < dp) (hN : 1 ≤ N)
    (h0 : 0 < φ) (h1 : φ < Real.pi / 2) (h2 : Real.tan φ - φ < Real.pi / 2) :
    0 < (pitchInvolutePoint dp N φ).x := by
  rw [pitchInvolutePoint_eq dp N φ hdp hN h0 h1]
  have hr : 0 < pitchDia dp N / 2 := by
    unfold pitchDia
    have : (0 : ℝ) < N := by exact_mod_cast (by omega : 0 < N)
    positivity
  have ht := Real.lt_tan h0 h1
  have hc : 0 < Real.cos (Real.tan φ - φ) :=
    Real.cos_pos_of_mem_Ioo ⟨by linarith [Real.pi_pos], h2⟩
  exact mul_pos hr hc

theorem default_pressureAngle_bounds :
    0 < 20 * (Real.pi / 180) ∧ 20 * (Real.pi / 180) < Real.pi / 2
      ∧ 0 < Real.tan (20 * (Real.pi / 180)) - 20 * (Real.pi / 180)
      ∧ Real.tan (20 * (Real.pi / 180)) - 20 * (Real.pi / 180) < 1 := by
  have hpi := Real.pi_pos
  have h0 : 0 < 20 * (Real.pi / 180) := by positivity
  have h1 : 20 * (Real.pi / 180) < Real.pi / 2 := by linarith
  have ht := Real.lt_tan h0 h1
  have ht1 : Real.tan (20 * (Real.pi / 180)) < 1 := by
    rw [← Real.tan_pi_div_four]
    apply Real.tan_lt_tan_of_lt_of_lt_pi_div_two <;> linarith
  exact ⟨h0, h1, by linarith, by linarith⟩

theorem arctan_four_bounds : 0 < Real.arctan 4 ∧ Real.arctan 4 < Real.pi / 2 := by
  refine ⟨?_, Real.arctan_lt_pi_div_two 4⟩
  rw [← Real.arctan_zero]
  exact Real.arctan_strictMono (by norm_num)

/-! ## C10 -/

/-- C10 as stated fails: for `diametralPitch = 1`, `numTeeth = 4` and the pressure angle
`arctan 4`, which lies in `(0, π/2)`, the pitch point has a negative `x` and `pitchPointAngle
= atan (y / x)` differs from `atan2 (y, x)`. -/
theorem pitchPointAngle_ne_atan2 :
    (0 < Real.arctan 4 ∧ Real.arctan 4 < Real.pi / 2)
      ∧ pitchPointAngle 1 4 (Real.arctan 4)
          ≠ atan2 (pitchInvolutePoint 1 4 (Real.arctan 4)).y
              (pitchInvolutePoint 1 4 (Real.arctan 4)).x := by
  obtain ⟨h0, h1⟩ := arctan_four_bounds
  refine ⟨⟨h0, h1⟩, ?_⟩
  have hx : (pitchInvolutePoint 1 4 (Real.arctan 4)).x < 0 := by
    rw [pitchInvolutePoint_eq 1 4 (Real.arctan 4) one_pos (by norm_num) h0 h1,
      Real.tan_arctan]
    have hc : Real.cos (4 - Real.arctan 4) < 0 := by
      apply Real.cos_neg_of_pi_div_two_lt_of_lt
      · linarith [Real.pi_le_four]
      · linarith [Real.pi_gt_three]
    have hr : 0 < pitchDia 1 4 / 2 := by
      unfold pitchDia
      norm_num
    exact mul_neg_of_pos_of_neg hr hc
  exact atan2_ne_arctan_of_neg _ _ _ hx

/-- C10, amended: for `diametralPitch > 0`, `numTeeth ≥ 4`, `pressureAngle` in `(0, π/2)`
and a pitch involute point with `x > 0`, `pitchPointAngle = atan (y / x)` equals
`atan2 (y, x)`. -/
theorem pitchPointAngle_eq_atan2 (dp : ℝ) (N : ℤ) (φ : ℝ) (_hdp : 0 < dp) (_hN : 4 ≤ N)
    (_h0 : 0 < φ) (_h1 : φ < Real.pi / 2) (hx : 0 < (pitchInvolutePoint dp N φ).x) :
    pitchPointAngle dp N φ
      = atan2 (pitchInvolutePoint dp N φ).y (pitchInvolutePoint dp N φ).x := by
  rw [atan2_of_pos _ _ hx]
  rfl

/-- C10, amended, at `diametralPitch = 7.62`, `numTeeth = 24` and the pressure angle of 20
degrees. -/
theorem pitchPointAngle_eq_atan2_witness :
    pitchPointAngle 7.62 24 (20 * (Real.pi / 180))
      = atan2 (pitchInvolutePoint 7.62 24 (20 * (Real.pi / 180))).y
          (pitchInvolutePoint 7.62 24 (20 * (Real.pi / 180))).x :=
  pitchPointAngle_eq_atan2 7.62 24 (20 * (Real.pi / 180)) (by norm_num) (by norm_num)
    default_pressureAngle_bounds.1 default_pressureAngle_bounds.2.1
    (pitchInvolutePoint_x_pos 7.62 24 (20 * (Real.pi / 180)) (by norm_num) (by norm_num)
      default_pressureAngle_bounds.1 default_pressureAngle_bounds.2.1
      (by linarith [default_pressureAngle_bounds.2.2.2, Real.pi_gt_three]))

/-! ## The first sample and the rotation angle -/

theorem getD_of_getElem? {α : Type} (l : List α) (i : ℕ) (p d : α) (h : l[i]? = some p) :
    l.getD i d = p := by
  simp [List.getD_eq_getElem?_getD, h]

theorem sampledPoints_zero (dp : ℝ) (N : ℤ) (φ : ℝ) (hdp : 0 < dp) (hN : 1 ≤ N)
    (h0 : 0 < φ) (h1 : φ < Real.pi / 2) :
    (sampledPoints dp N φ)[0]? = some ⟨baseCircleDiameter dp N φ / 2, 0, 0⟩ := by
  have hb := baseCircleDiameter_pos dp N φ hdp hN h0 h1
  unfold sampledPoints
  rw [List.getElem?_map, involuteIntersectionRadii_getElem? dp N φ 0 (by norm_num)]
  have e : baseCircleDiameter dp N φ / 2.0 = baseCircleDiameter dp N φ / 2 := by norm_num
  simp only [Option.map_some', Nat.cast_zero, zero_mul, add_zero, e]
  rw [involutePoint_self _ (by linarith)]

theorem involutePoints_zero (dp : ℝ) (N : ℤ) (φ : ℝ) (hdp : 0 < dp) (hN : 1 ≤ N)
    (h0 : 0 < φ) (h1 : φ < Real.pi / 2) :
    (involutePoints dp N φ)[0]?
      = some ⟨baseCircleDiameter dp N φ / 2 * cosAngle dp N φ,
          baseCircleDiameter dp N φ / 2 * cosAngle dp N φ * sinAngle dp N φ, 0⟩ := by
  unfold involutePoints
  rw [List.getElem?_map, sampledPoints_zero dp N φ hdp hN h0 h1]
  simp [rotateInPlace]

theorem rotationAngle_default :
    rotationAngle 7.62 24 (20 * (Real.pi / 180))
      = -(Real.tan (20 * (Real.pi / 180)) - 20 * (Real.pi / 180)) - Real.pi / 48 := by
  obtain ⟨h0, h1, h2, h3⟩ := default_pressureAngle_bounds
  unfold rotationAngle tooththicknessAngle
  rw [pitchPointAngle_eq_arctan_tan 7.62 24 _ (by norm_num) (by norm_num) h0 h1,
    Real.arctan_tan (by linarith [Real.pi_pos]) (by linarith [Real.pi_gt_three])]
  push_cast
  ring

theorem rotationAngle_default_bounds :
    -(Real.pi / 2) < rotationAngle 7.62 24 (20 * (Real.pi / 180))
      ∧ rotationAngle 7.62 24 (20 * (Real.pi / 180)) < 0 := by
  obtain ⟨h0, h1, h2, h3⟩ := default_pressureAngle_bounds
  rw [rotationAngle_default]
  constructor
  · linarith [Real.pi_gt_three]
  · linarith [Real.pi_pos]

theorem arctan_six_bounds :
    Real.pi / 2 - 1 / 6 < Real.arctan 6 ∧ Real.arctan 6 < Real.pi / 2 := by
  refine ⟨?_, Real.arctan_lt_pi_div_two 6⟩
  have h := Real.arctan_inv_of_pos (show (0 : ℝ) < 6 by norm_num)
  have h2 := arctan_lt_self (6 : ℝ)⁻¹ (by norm_num)
  have e : (6 : ℝ)⁻¹ = 1 / 6 := by norm_num
  rw [e] at h h2
  linarith

theorem rotationAngle_steep :
    rotationAngle 1 5 (Real.arctan 6) = 9 * Real.pi / 10 - 6 + Real.arctan 6 := by
  obtain ⟨hlo, hhi⟩ := arctan_six_bounds
  have hpi3 := Real.pi_gt_d2
  have hpi4 := Real.pi_lt_d2
  have h0 : 0 < Real.arctan 6 := by linarith
  unfold rotationAngle tooththicknessAngle
  rw [pitchPointAngle_eq_arctan_tan 1 5 _ one_pos (by norm_num) h0 hhi, Real.tan_arctan,
    ← Real.tan_sub_pi,
    Real.arctan_tan (by linarith) (by linarith)]
  push_cast
  ring

theorem cosAngle_steep_neg : cosAngle 1 5 (Real.arctan 6) < 0 := by
  obtain ⟨hlo, hhi⟩ := arctan_six_bounds
  have hpi3 := Real.pi_gt_d2
  have hpi4 := Real.pi_lt_d2
  unfold cosAngle
  rw [rotationAngle_steep, ← Real.cos_neg]
  apply Real.cos_neg_of_pi_div_two_lt_of_lt <;> linarith

/-! ## C2 -/

/-- C2 fails on the code: for `diametralPitch = 7.62`, `numTeeth = 24` and the pressure angle
of 20 degrees, the point stored for sample 0 by the loop of lines 254-257 is not the rotation
of the sampled point by `-pitchPointAngle + tooththicknessAngle / 2`, and it is closer to the
origin than the sampled point. -/
theorem rotation_step_default_not_rotation :
    (involutePoints 7.62 24 (20 * (Real.pi / 180))).getD 0 ⟨0, 0, 0⟩
        ≠ rotateAbout (rotationAngle 7.62 24 (20 * (Real.pi / 180)))
            ((sampledPoints 7.62 24 (20 * (Real.pi / 180))).getD 0 ⟨0, 0, 0⟩)
      ∧ pointDist ((involutePoints 7.62 24 (20 * (Real.pi / 180))).getD 0 ⟨0, 0, 0⟩)
          < pointDist ((sampledPoints 7.62 24 (20 * (Real.pi / 180))).getD 0 ⟨0, 0, 0⟩) := by
  obtain ⟨h0, h1, -, -⟩ := default_pressureAngle_bounds
  obtain ⟨ha1, ha2⟩ := rotationAngle_default_bounds
  have hb' : 0 < baseCircleDiameter 7.62 24 (20 * (Real.pi / 180)) / 2 := by
    have hb := baseCircleDiameter_pos 7.62 24 _ (by norm_num) (by norm_num) h0 h1
    linarith
  have hs : Real.sin (rotationAngle 7.62 24 (20 * (Real.pi / 180))) < 0 :=
    Real.sin_neg_of_neg_of_neg_pi_lt ha2 (by linarith [Real.pi_pos])
  have hc : 0 < Real.cos (rotationAngle 7.62 24 (20 * (Real.pi / 180))) :=
    Real.cos_pos_of_mem_Ioo ⟨ha1, by linarith [Real.pi_pos]⟩
  have hsc := Real.sin_sq_add_cos_sq (rotationAngle 7.62 24 (20 * (Real.pi / 180)))
  rw [getD_of_getElem? _ 0 _ _
      (involutePoints_zero 7.62 24 _ (by norm_num) (by norm_num) h0 h1),
    getD_of_getElem? _ 0 _ _
      (sampledPoints_zero 7.62 24 _ (by norm_num) (by norm_num) h0 h1)]
  simp only [cosAngle, sinAngle]
  generalize rotationAngle 7.62 24 (20 * (Real.pi / 180)) = a at hs hc hsc
  generalize baseCircleDiameter 7.62 24 (20 * (Real.pi / 180)) / 2 = b at hb' ⊢
  have hc1 : Real.cos a < 1 := by nlinarith
  constructor
  · intro h
    have hy := congrArg Point3D.y h
    simp only [rotateAbout, zero_mul, add_zero] at hy
    have : b * Real.sin a * (Real.cos a - 1) = 0 := by linarith
    have hpos : 0 < b * Real.sin a * (Real.cos a - 1) :=
      mul_pos_of_neg_of_neg (mul_neg_of_pos_of_neg hb' hs) (by linarith)
    linarith
  · simp only [pointDist]
    apply Real.sqrt_lt_sqrt (add_nonneg (mul_self_nonneg _) (mul_self_nonneg _))
    have hs2 : 0 < Real.sin a ^ 2 := by nlinarith
    have hb2 : 0 < b * b := by positivity
    have e : b * Real.cos a * (b * Real.cos a)
          + b * Real.cos a * Real.sin a * (b * Real.cos a * Real.sin a)
        = b * b * (1 - Real.sin a ^ 2 * Real.sin a ^ 2) := by
      have hcc : Real.cos a ^ 2 = 1 - Real.sin a ^ 2 := by linarith
      have : b * Real.cos a * (b * Real.cos a)
          + b * Real.cos a * Real.sin a * (b * Real.cos a * Real.sin a)
          = b * b * (Real.cos a ^ 2 * (1 + Real.sin a ^ 2)) := by ring
      rw [this, hcc]
      ring
    rw [e]
    nlinarith [mul_pos hb2 (mul_pos hs2 hs2)]

/-! ## The next tooth -/

theorem currentAngle1_eq (N : ℤ) : currentAngle1 N = 2 * Real.pi / (N : ℝ) := by
  unfold currentAngle1 angleDiff tooththicknessAngle
  by_cases hN : (N : ℝ) = 0
  · simp [hN]
  · field_simp
    ring

theorem nextInvolutePoints_getElem? (dp : ℝ) (N : ℤ) (φ : ℝ) (i : ℕ) (hi : i < 10)
    (p : Point3D) (h : (involutePoints dp N φ)[i]? = some p) :
    (nextInvolutePoints dp N φ)[i]?
      = some ⟨pointDist p * Real.cos (pointAngle p + currentAngle1 N),
          pointDist p * Real.sin (pointAngle p + currentAngle1 N), p.z⟩ := by
  unfold nextInvolutePoints
  rw [List.getElem?_map, List.getElem?_range (by simpa [involutePointCount] using hi)]
  simp only [Option.map_some', curve1Dist, curve1Angle]
  rw [getD_map_of_getElem? _ pointDist i p h, getD_map_of_getElem? _ pointAngle i p h,
    getD_of_getElem? _ i p _ h]

theorem nextInvolute2Points_getElem? (dp : ℝ) (N : ℤ) (φ : ℝ) (i : ℕ) (hi : i < 10)
    (p : Point3D) (h : (involute2Points dp N φ)[i]? = some p) :
    (nextInvolute2Points dp N φ)[i]?
      = some ⟨pointDist p * Real.cos (pointAngle p + currentAngle1 N),
          pointDist p * Real.sin (pointAngle p + currentAngle1 N), p.z⟩ := by
  unfold nextInvolute2Points
  rw [List.getElem?_map, List.getElem?_range (by simpa [involutePointCount] using hi)]
  simp only [Option.map_some', curve2Dist, curve2Angle]
  rw [getD_map_of_getElem? _ pointDist i p h, getD_map_of_getElem? _ pointAngle i p h,
    getD_of_getElem? _ i p _ h]

theorem pointDist_nonneg (p : Point3D) : 0 ≤ pointDist p := Real.sqrt_nonneg _

theorem pointDist_polar (d a : ℝ) (z : ℝ) (hd : 0 ≤ d) :
    pointDist ⟨d * Real.cos a, d * Real.sin a, z⟩ = d := by
  simp only [pointDist]
  have e : d * Real.cos a * (d * Real.cos a) + d * Real.sin a * (d * Real.sin a) = d ^ 2 := by
    have := Real.sin_sq_add_cos_sq a
    nlinarith
  rw [e, Real.sqrt_sq hd]

theorem polar_of_pos (p : Point3D) (hx : 0 < p.x) :
    pointDist p * Real.cos (pointAngle p) = p.x
      ∧ pointDist p * Real.sin (pointAngle p) = p.y := by
  have hd : 0 < p.x * p.x + p.y * p.y := by
    nlinarith [mul_pos hx hx, mul_self_nonneg p.y]
  have hsq : Real.sqrt (1 + (p.y / p.x) ^ 2) = Real.sqrt (p.x * p.x + p.y * p.y) / p.x := by
    have e : 1 + (p.y / p.x) ^ 2 = (p.x * p.x + p.y * p.y) / p.x ^ 2 := by
      field_simp
      ring
    rw [e, Real.sqrt_div hd.le, Real.sqrt_sq hx.le]
  have hs : 0 < Real.sqrt (p.x * p.x + p.y * p.y) := Real.sqrt_pos.mpr hd
  simp only [pointDist, pointAngle, Real.cos_arctan, Real.sin_arctan, hsq]
  constructor <;> field_simp

theorem polar_rotate_of_pos (p : Point3D) (a : ℝ) (hx : 0 < p.x) :
    (⟨pointDist p * Real.cos (pointAngle p + a),
        pointDist p * Real.sin (pointAngle p + a), p.z⟩ : Point3D) = rotateAbout a p := by
  obtain ⟨h1, h2⟩ := polar_of_pos p hx
  rw [Point3D.ext_iff3]
  simp only [rotateAbout, Real.cos_add, Real.sin_add]
  refine ⟨?_, ?_, trivial⟩
  · linear_combination Real.cos a * h1 - Real.sin a * h2
  · linear_combination Real.sin a * h1 + Real.cos a * h2

theorem polar_of_neg (p : Point3D) (hx : p.x < 0) :
    pointDist p * Real.cos (pointAngle p) = -p.x
      ∧ pointDist p * Real.sin (pointAngle p) = -p.y := by
  have hx0 : p.x ≠ 0 := hx.ne
  have hd : 0 < p.x * p.x + p.y * p.y := by
    nlinarith [mul_pos_of_neg_of_neg hx hx, mul_self_nonneg p.y]
  have hsq : Real.sqrt (1 + (p.y / p.x) ^ 2) = Real.sqrt (p.x * p.x + p.y * p.y) / -p.x := by
    have e : 1 + (p.y / p.x) ^ 2 = (p.x * p.x + p.y * p.y) / (-p.x) ^ 2 := by
      field_simp
      ring
    rw [e, Real.sqrt_div hd.le, Real.sqrt_sq (by linarith)]
  have hs : 0 < Real.sqrt (p.x * p.x + p.y * p.y) := Real.sqrt_pos.mpr hd
  simp only [pointDist, pointAngle, Real.cos_arctan, Real.sin_arctan, hsq]
  constructor <;> field_simp <;> ring

theorem polar_rotate_of_neg (p : Point3D) (a : ℝ) (hx : p.x < 0) :
    (⟨pointDist p * Real.cos (pointAngle p + a),
        pointDist p * Real.sin (pointAngle p + a), p.z⟩ : Point3D)
      = rotateAbout (a + Real.pi) p := by
  obtain ⟨h1, h2⟩ := polar_of_neg p hx
  rw [Point3D.ext_iff3]
  simp only [rotateAbout, Real.cos_add, Real.sin_add, Real.cos_pi, Real.sin_pi]
  refine ⟨?_, ?_, trivial⟩
  · linear_combination Real.cos a * h1 - Real.sin a * h2
  · linear_combination Real.sin a * h1 + Real.cos a * h2

/-- Where the stored point has `x > 0`: for every sample index `i` in `0..9` the points
re-derived for the next tooth on both curves have the same distance from the origin as the
stored points `i`, and, when the stored point of curve 1 has `x > 0`, they are the stored
points rotated about the origin by `2π / numTeeth`. -/
theorem next_tooth_rotation_of_pos (dp : ℝ) (N : ℤ) (φ : ℝ) (i : Fin 10) :
    ∃ p p2 q q2 : Point3D,
      (involutePoints dp N φ)[(i : ℕ)]? = some p
        ∧ (involute2Points dp N φ)[(i : ℕ)]? = some p2
        ∧ (nextInvolutePoints dp N φ)[(i : ℕ)]? = some q
        ∧ (nextInvolute2Points dp N φ)[(i : ℕ)]? = some q2
        ∧ pointDist q = pointDist p
        ∧ pointDist q2 = pointDist p2
        ∧ (0 < p.x → q = rotateAbout (2 * Real.pi / (N : ℝ)) p
            ∧ q2 = rotateAbout (2 * Real.pi / (N : ℝ)) p2) := by
  have hi : (i : ℕ) < (involutePoints dp N φ).length := by
    rw [involutePoints_length]
    exact i.isLt
  have hp : (involutePoints dp N φ)[(i : ℕ)]? = some (involutePoints dp N φ)[(i : ℕ)] :=
    List.getElem?_eq_getElem hi
  generalize (involutePoints dp N φ)[(i : ℕ)] = p at hp
  have hp2 := involute2Points_getElem? dp N φ i p hp
  refine ⟨p, ⟨p.x, -p.y, 0⟩, _, _, hp, hp2,
    nextInvolutePoints_getElem? dp N φ i i.isLt p hp,
    nextInvolute2Points_getElem? dp N φ i i.isLt _ hp2,
    pointDist_polar _ _ _ (pointDist_nonneg _), pointDist_polar _ _ _ (pointDist_nonneg _), ?_⟩
  intro hx
  rw [← currentAngle1_eq]
  exact ⟨polar_rotate_of_pos p _ hx, polar_rotate_of_pos ⟨p.x, -p.y, 0⟩ _ hx⟩

/-! ## C4 -/

/-- C4 fails on the code: for `diametralPitch = 1`, `numTeeth = 5` and the pressure angle
`arctan 6`, which lies in `(0, π/2)`, the stored point at sample index 0 of curve 1 has
`x < 0`, and the point re-derived for the next tooth from `curve1Dist[0]` and
`curve1Angle[0] = atan (y / x)` is the stored point rotated by `2π/5 + π`: it is neither the
rotation by `2π/5` nor the rotation by `-2π/5`, and the angle between it and the stored point
is obtuse (their inner product is negative), while `2π/5` is acute. -/
theorem next_tooth_not_rotation :
    (0 < Real.arctan 6 ∧ Real.arctan 6 < Real.pi / 2)
      ∧ ((involutePoints 1 5 (Real.arctan 6)).getD 0 ⟨0, 0, 0⟩).x < 0
      ∧ (nextInvolutePoints 1 5 (Real.arctan 6)).getD 0 ⟨0, 0, 0⟩
          = rotateAbout (2 * Real.pi / ((5 : ℤ) : ℝ) + Real.pi)
              ((involutePoints 1 5 (Real.arctan 6)).getD 0 ⟨0, 0, 0⟩)
      ∧ (nextInvolutePoints 1 5 (Real.arctan 6)).getD 0 ⟨0, 0, 0⟩
          ≠ rotateAbout (2 * Real.pi / ((5 : ℤ) : ℝ))
              ((involutePoints 1 5 (Real.arctan 6)).getD 0 ⟨0, 0, 0⟩)
      ∧ (nextInvolutePoints 1 5 (Real.arctan 6)).getD 0 ⟨0, 0, 0⟩
          ≠ rotateAbout (-(2 * Real.pi / ((5 : ℤ) : ℝ)))
              ((involutePoints 1 5 (Real.arctan 6)).getD 0 ⟨0, 0, 0⟩)
      ∧ ((nextInvolutePoints 1 5 (Real.arctan 6)).getD 0 ⟨0, 0, 0⟩).x
            * ((involutePoints 1 5 (Real.arctan 6)).getD 0 ⟨0, 0, 0⟩).x
          + ((nextInvolutePoints 1 5 (Real.arctan 6)).getD 0 ⟨0, 0, 0⟩).y
            * ((involutePoints 1 5 (Real.arctan 6)).getD 0 ⟨0, 0, 0⟩).y < 0 := by
  obtain ⟨hlo, hhi⟩ := arctan_six_bounds
  have h0 : 0 < Real.arctan 6 := by linarith [Real.pi_gt_three]
  have hp := involutePoints_zero 1 5 (Real.arctan 6) one_pos (by norm_num) h0 hhi
  have hq := nextInvolutePoints_getElem? 1 5 (Real.arctan 6) 0 (by norm_num) _ hp
  have hb := baseCircleDiameter_pos 1 5 (Real.arctan 6) one_pos (by norm_num) h0 hhi
  have hx : baseCircleDiameter 1 5 (Real.arctan 6) / 2 * cosAngle 1 5 (Real.arctan 6) < 0 :=
    mul_neg_of_pos_of_neg (by linarith) cosAngle_steep_neg
  rw [getD_of_getElem? _ 0 _ _ hq, getD_of_getElem? _ 0 _ _ hp]
  generalize hpdef : (⟨baseCircleDiameter 1 5 (Real.arctan 6) / 2
      * cosAngle 1 5 (Real.arctan 6),
    baseCircleDiameter 1 5 (Real.arctan 6) / 2 * cosAngle 1 5 (Real.arctan 6)
      * sinAngle 1 5 (Real.arctan 6), 0⟩ : Point3D) = p
  have hpx : p.x < 0 := by
    rw [← hpdef]
    exact hx
  rw [polar_rotate_of_neg p (currentAngle1 5) hpx, currentAngle1_eq]
  have hδ0 : 0 < 2 * Real.pi / ((5 : ℤ) : ℝ) := by
    push_cast
    positivity
  have hδ1 : 2 * Real.pi / ((5 : ℤ) : ℝ) < Real.pi / 2 := by
    push_cast
    linarith [Real.pi_pos]
  have hc : 0 < Real.cos (2 * Real.pi / ((5 : ℤ) : ℝ)) :=
    Real.cos_pos_of_mem_Ioo ⟨by linarith [Real.pi_pos], hδ1⟩
  have hn : 0 < p.x * p.x + p.y * p.y := by
    nlinarith [mul_pos_of_neg_of_neg hpx hpx, mul_self_nonneg p.y]
  have hdot : (rotateAbout (2 * Real.pi / ((5 : ℤ) : ℝ) + Real.pi) p).x * p.x
      + (rotateAbout (2 * Real.pi / ((5 : ℤ) : ℝ) + Real.pi) p).y * p.y < 0 := by
    simp only [rotateAbout, Real.cos_add, Real.sin_add, Real.cos_pi, Real.sin_pi]
    nlinarith [mul_pos hc hn]
  have hdotpos : ∀ a : ℝ, Real.cos a = Real.cos (2 * Real.pi / ((5 : ℤ) : ℝ)) →
      0 < (rotateAbout a p).x * p.x + (rotateAbout a p).y * p.y := by
    intro a ha
    simp only [rotateAbout, ha]
    nlinarith [mul_pos hc hn]
  refine ⟨⟨h0, hhi⟩, hpx, rfl, ?_, ?_, hdot⟩
  · intro h
    have := hdotpos _ rfl
    rw [← h] at this
    linarith
  · intro h
    have := hdotpos (-(2 * Real.pi / ((5 : ℤ) : ℝ))) (Real.cos_neg _)
    rw [← h] at this
    linarith

end SpurGear
